import Mathlib

/-!
Verification of the versioned document storage engine of the
`doc-manager` repository (Express + Prisma + BullMQ backend).

The embedding below follows `src/backend/src/services/documentService.ts`,
`src/backend/src/services/storageService.ts`,
`src/backend/src/queues/uploadQueue.ts` and the Prisma schema
(migrations creating `documents` / `document_versions`).

Machine state is passed explicitly: the relational database is a `Db`
record of `Document` and `DocumentVersion` rows, the object store and the
temp-file area are association lists from string keys to byte sequences,
and fallible operations return `Except AppError`.
-/

namespace DocMgr

/-- Byte content of a stored object. -/
abbrev Bytes := List Nat

/-- `AppError` from `src/backend/src/middlewares/errorHandler.ts`:
an HTTP status code plus a message. -/
structure AppError where
  status : Nat
  message : String
deriving DecidableEq, Repr

/-- A row of the `documents` table (Prisma model `Document` after the
version-table migration: id, tier_id, title, current_version,
uploaded_by_id, created_at, updated_at). -/
structure Document where
  id : String
  tierId : String
  title : String
  currentVersion : Nat
  uploadedById : Option String
  createdAt : Nat
  updatedAt : Nat
deriving DecidableEq, Repr

/-- A row of the `document_versions` table (Prisma model
`DocumentVersion`: id, document_id, version_number, title, file_name,
file_path — the object-store key —, mime_type, file_size, changelog,
uploaded_by_id, created_at). -/
structure DocumentVersion where
  id : String
  documentId : String
  versionNumber : Nat
  title : String
  fileName : String
  filePath : String
  mimeType : String
  fileSize : Nat
  changelog : Option String
  uploadedById : Option String
  createdAt : Nat
deriving DecidableEq, Repr

/-- A row of the `document_tiers` table (only the columns
`DocumentService.enqueueUpload` selects). -/
structure DocumentTier where
  id : String
  projectId : String
deriving DecidableEq, Repr

/-- The relational database state: the two tables the storage engine
reads and writes. -/
structure Db where
  documents : List Document
  versions : List DocumentVersion
deriving DecidableEq, Repr

/-- A key-addressed blob store (the `IStorageService` abstraction of
`storageService.ts`), as an association list; earlier entries shadow
later ones, so `put` is an overwriting cons. -/
def Store := List (String × Bytes)
deriving DecidableEq, Repr

/-- Look up the object stored at a key (first match wins). -/
def Store.lookup : Store → String → Option Bytes
  | [], _ => none
  | (k, v) :: rest, key => if k = key then some v else Store.lookup rest key

/-- `upload`/`put`: store content at a key, overwriting any previous
object there. -/
def Store.put (s : Store) (key : String) (content : Bytes) : Store :=
  (key, content) :: s

/-- Remove the object at a key (used for the temp-file area after the
worker's `fs.unlink`). -/
def Store.del (s : Store) (key : String) : Store :=
  s.filter (fun kv => kv.1 ≠ key)

/-- `IStorageService.copy`: duplicate the object at `src` to `dest`
(`LocalStorageService.copy` is an `fsp.copyFile`, which fails when the
source is missing). -/
def Store.copy (s : Store) (src dest : String) : Except AppError Store :=
  match s.lookup src with
  | none => .error ⟨500, "ENOENT: no such object"⟩
  | some content => .ok (s.put dest content)

/-! ### Path helpers (`path.dirname` / `path.basename` / `path.extname`)

Node's POSIX semantics for the keys this system builds
(`documents/<projectId>/<jobId><ext>` — no leading or trailing
slash): split at the last separator. -/

/-- Split a character list at the LAST occurrence of `sep`:
`some (before, after)`, or `none` when `sep` does not occur. -/
def splitLast (sep : Char) : List Char → Option (List Char × List Char)
  | [] => none
  | c :: rest =>
    match splitLast sep rest with
    | some (pre, post) => some (c :: pre, post)
    | none => if c = sep then some ([], rest) else none

/-- `path.dirname` for the relative, slash-separated keys in use:
everything before the last `/`, or `"."` when there is no slash. -/
def dirname (s : String) : String :=
  match splitLast '/' s.data with
  | some (pre, _) => String.mk pre
  | none => "."

/-- `path.basename`: everything after the last `/`, or the whole string
when there is no slash. -/
def basename (s : String) : String :=
  match splitLast '/' s.data with
  | some (_, post) => String.mk post
  | none => s

/-- `path.extname`: `"." ++ suffix` after the last dot of the basename,
`""` when the basename has no dot or starts with its only dot. -/
def extname (s : String) : String :=
  match splitLast '.' (basename s).data with
  | some ([], _) => ""
  | some (_, post) => String.mk ('.' :: post)
  | none => ""

/-- The `.replace(/\\/g, '/')` applied to the dirname in
`DocumentService.revert`. -/
def replaceBackslash (s : String) : String :=
  String.mk (s.data.map (fun c => if c = '\\' then '/' else c))

/-! ### `DocumentService.revert` (documentService.ts:153-213)

The source performs, in order:
1. `documentVersion.findUnique` on the target version id; 404 when the
   row is missing or belongs to another document;
2. `document.findUniqueOrThrow` on the document id;
3. computes `newVersionNumber = doc.currentVersion + 1` and the new
   object key `dirname(target.filePath)/revert-v{n}-basename(...)`;
4. `storageService.copy` of the target's object to the new key —
   OUTSIDE the transaction;
5. a `prisma.$transaction` that inserts the new `DocumentVersion` row
   and updates the `Document` row (title, currentVersion, uploadedById,
   and the auto-managed updatedAt), returning the updated document.

The phases are split so the pre-transaction state (steps 1-4) and the
atomic commit (step 5) can be reasoned about separately. -/

/-- Everything `revert` has computed before it touches the object store
or the database: the resolved target row, the document row as read, the
incremented version number, and the new object key. -/
structure RevertPlan where
  target : DocumentVersion
  doc : Document
  newVersionNumber : Nat
  newObjectKey : String
deriving DecidableEq, Repr

/-- The new object key `revert` builds:
`` `${dirKey}/revert-v${newVersionNumber}-${path.basename(target.filePath)}` ``
with `dirKey = path.dirname(target.filePath).replace(/\\/g, '/')`. -/
def revertKey (target : DocumentVersion) (newVersionNumber : Nat) : String :=
  replaceBackslash (dirname target.filePath) ++ "/" ++
    ("revert-v" ++ toString newVersionNumber ++ "-" ++ basename target.filePath)

/-- Steps 1-3 of `revert`: resolve the target version, reject a missing
or cross-document id with the same 404, read the document, and compute
the new version number and object key. No state is modified. -/
def revertRead (db : Db) (documentId versionId : String) :
    Except AppError RevertPlan :=
  match db.versions.find? (fun v => v.id == versionId) with
  | none => .error ⟨404, "Version not found for this document"⟩
  | some target =>
    if target.documentId ≠ documentId then
      .error ⟨404, "Version not found for this document"⟩
    else
      match db.documents.find? (fun d => d.id == documentId) with
      | none => .error ⟨500, "Record not found"⟩
      | some doc =>
        .ok { target := target, doc := doc,
              newVersionNumber := doc.currentVersion + 1,
              newObjectKey := revertKey target (doc.currentVersion + 1) }

/-- Steps 1-4 of `revert`: the reads plus the object-store copy. This is
exactly the state the system is in when the metadata transaction starts;
note that the database component is untouched. -/
def revertUpToCopy (db : Db) (store : Store) (documentId versionId : String) :
    Except AppError (RevertPlan × Store) := do
  let plan ← revertRead db documentId versionId
  let store' ← store.copy plan.target.filePath plan.newObjectKey
  .ok (plan, store')

/-- Step 5 of `revert`: the `prisma.$transaction` body. Inserts the new
`DocumentVersion` row (metadata copied from the target, changelog
`"Reverted to version {target.versionNumber}"`) and updates the
`Document` row (title, currentVersion, uploadedById, updatedAt),
returning the new database and the updated document row. -/
def revertCommit (db : Db) (plan : RevertPlan)
    (documentId userId newVersionId : String) (now : Nat) : Db × Document :=
  let newVersion : DocumentVersion :=
    { id := newVersionId
      documentId := documentId
      versionNumber := plan.newVersionNumber
      title := plan.target.title
      fileName := plan.target.fileName
      filePath := plan.newObjectKey
      mimeType := plan.target.mimeType
      fileSize := plan.target.fileSize
      changelog := some ("Reverted to version " ++ toString plan.target.versionNumber)
      uploadedById := some userId
      createdAt := now }
  let updateRow : Document → Document := fun d =>
    if d.id == documentId then
      { d with title := plan.target.title
               currentVersion := plan.newVersionNumber
               uploadedById := some userId
               updatedAt := now }
    else d
  (⟨db.documents.map updateRow, db.versions ++ [newVersion]⟩,
   { plan.doc with title := plan.target.title
                   currentVersion := plan.newVersionNumber
                   uploadedById := some userId
                   updatedAt := now })

/-- The value a successful `revert` produces: the new database and
object-store states plus the refreshed document row the service
returns. -/
structure RevertResult where
  db : Db
  store : Store
  doc : Document
deriving DecidableEq, Repr

/-- `DocumentService.revert(documentId, versionId, userId)`. `newVersionId`
stands for the UUID the database generates for the inserted row and
`now` for the commit timestamp. -/
def revert (db : Db) (store : Store) (documentId versionId userId : String)
    (newVersionId : String) (now : Nat) : Except AppError RevertResult := do
  let (plan, store') ← revertUpToCopy db store documentId versionId
  let (db', doc') := revertCommit db plan documentId userId newVersionId now
  .ok ⟨db', store', doc'⟩

/-! ### The ingestion queue and `DocumentService.enqueueUpload`
(uploadQueue.ts, documentService.ts:65-103) -/

/-- `UploadJobData` from `src/backend/src/queues/uploadQueue.ts`. -/
structure UploadJobData where
  tempFilePath : String
  originalName : String
  mimeType : String
  fileSize : Nat
  tierId : String
  title : String
  projectId : String
  documentId : Option String
  changelog : Option String
  userId : Option String
deriving DecidableEq, Repr

/-- The caller-supplied part of an upload request (the argument of
`DocumentService.enqueueUpload`). -/
structure EnqueueData where
  tempFilePath : String
  originalName : String
  mimeType : String
  fileSize : Nat
  tierId : String
  title : String
  documentId : Option String
  changelog : Option String
  userId : Option String
deriving DecidableEq, Repr

/-- The job record persisted by `uploadQueue.add`. -/
structure QueuedJob where
  id : String
  data : UploadJobData
deriving DecidableEq, Repr

/-- The job payload `enqueueUpload` builds: the request data stamped
with the tier's `projectId`. -/
def mkJobData (d : EnqueueData) (projectId : String) : UploadJobData :=
  { tempFilePath := d.tempFilePath
    originalName := d.originalName
    mimeType := d.mimeType
    fileSize := d.fileSize
    tierId := d.tierId
    title := d.title
    projectId := projectId
    documentId := d.documentId
    changelog := d.changelog
    userId := d.userId }

/-- `DocumentService.enqueueUpload`: validate that the tier exists (404
"Tier not found"), validate that a referenced document exists (404
"Document not found"), and only then persist the job and return its id.
The queue assigns incremental job ids. -/
def enqueueUpload (tiers : List DocumentTier) (db : Db)
    (queue : List QueuedJob) (d : EnqueueData) :
    Except AppError (List QueuedJob × String) :=
  match tiers.find? (fun t => t.id == d.tierId) with
  | none => .error ⟨404, "Tier not found"⟩
  | some tier =>
    match d.documentId with
    | some did =>
      match db.documents.find? (fun x => x.id == did) with
      | none => .error ⟨404, "Document not found"⟩
      | some _ =>
        let jobId := toString queue.length
        .ok (queue ++ [⟨jobId, mkJobData d tier.projectId⟩], jobId)
    | none =>
      let jobId := toString queue.length
      .ok (queue ++ [⟨jobId, mkJobData d tier.projectId⟩], jobId)

/-! ### The ingestion worker -/

/-- The full mutable state the ingestion pipeline touches: the
relational database, the object store, and the temp-file area uploads
are staged in. -/
structure SysState where
  db : Db
  store : Store
  temps : Store
deriving DecidableEq, Repr

/-- The job result the worker returns. -/
structure UploadResult where
  documentId : String
  fileName : String
  fileSize : Nat
deriving DecidableEq, Repr

/-- The object key the worker derives:
`` `documents/${projectId}/${job.id}${ext}` `` with
`ext = path.extname(originalName)`. -/
def workerKey (job : UploadJobData) (jobId : String) : String :=
  "documents/" ++ job.projectId ++ "/" ++ jobId ++ extname job.originalName

/-- Modelled from the spec: the version-table revision of the ingestion
worker's `processUpload` is absent from the repository snapshot — the
bundled `uploadWorker.ts` is an earlier revision predating the
`document_versions` table (it still destructures a `version` field that
no longer exists in `UploadJobData`). Following §4.3 of the spec: derive
the object key from the job id, project scope and original extension;
store the temp content at that key; delete the temp file; then commit
metadata — with `documentId` absent, create a Document
(`currentVersion = 1`) together with Version #1 in one atomic step; with
`documentId` present, read the Document, create Version
`currentVersion + 1` pointing at the new key, and update the Document's
`currentVersion` and denormalized fields (title, uploader, timestamp) in
one atomic transaction. `newDocId`/`newVersionId` stand for the UUIDs
the database generates and `now` for the commit timestamp. -/
def processUpload (st : SysState) (job : UploadJobData)
    (jobId newDocId newVersionId : String) (now : Nat) :
    Except AppError (SysState × UploadResult) :=
  let objectKey := workerKey job jobId
  match st.temps.lookup job.tempFilePath with
  | none => .error ⟨500, "ENOENT: no such file or directory"⟩
  | some content =>
    let store' := st.store.put objectKey content
    let temps' := st.temps.del job.tempFilePath
    match job.documentId with
    | some did =>
      match st.db.documents.find? (fun x => x.id == did) with
      | none => .error ⟨500, "Document not found for version update"⟩
      | some doc =>
        let n := doc.currentVersion + 1
        let newVersion : DocumentVersion :=
          { id := newVersionId, documentId := did, versionNumber := n,
            title := job.title, fileName := job.originalName,
            filePath := objectKey, mimeType := job.mimeType,
            fileSize := job.fileSize, changelog := job.changelog,
            uploadedById := job.userId, createdAt := now }
        let updateRow : Document → Document := fun x =>
          if x.id == did then
            { x with title := job.title, currentVersion := n,
                     uploadedById := job.userId, updatedAt := now }
          else x
        .ok (⟨⟨st.db.documents.map updateRow, st.db.versions ++ [newVersion]⟩,
              store', temps'⟩,
             ⟨did, job.originalName, job.fileSize⟩)
    | none =>
      let newDoc : Document :=
        { id := newDocId, tierId := job.tierId, title := job.title,
          currentVersion := 1, uploadedById := job.userId,
          createdAt := now, updatedAt := now }
      let newVersion : DocumentVersion :=
        { id := newVersionId, documentId := newDocId, versionNumber := 1,
          title := job.title, fileName := job.originalName,
          filePath := objectKey, mimeType := job.mimeType,
          fileSize := job.fileSize, changelog := job.changelog,
          uploadedById := job.userId, createdAt := now }
      .ok (⟨⟨st.db.documents ++ [newDoc], st.db.versions ++ [newVersion]⟩,
            store', temps'⟩,
           ⟨newDocId, job.originalName, job.fileSize⟩)

/-! ### The download path (`DocumentService.getFileInfo`,
documentService.ts:216-247, and the controller's stream from the
object store) -/

/-- The latest version of a document: Prisma's
`orderBy: { versionNumber: 'desc' }, take: 1` over the document's
versions, as a fold keeping the row with the strictly greatest
version number. -/
def latestVersionAux : List DocumentVersion → Option DocumentVersion →
    Option DocumentVersion
  | [], acc => acc
  | v :: rest, acc =>
    match acc with
    | none => latestVersionAux rest (some v)
    | some w =>
      if v.versionNumber > w.versionNumber then latestVersionAux rest (some v)
      else latestVersionAux rest (some w)

/-- The latest version row of a document, or `none` when it has no
version rows. -/
def latestVersion (versions : List DocumentVersion) (documentId : String) :
    Option DocumentVersion :=
  latestVersionAux (versions.filter (fun v => v.documentId == documentId)) none

/-- What `getFileInfo` returns to the download controller. -/
structure FileInfo where
  objectKey : String
  fileName : String
  mimeType : String
deriving DecidableEq, Repr

/-- `DocumentService.getFileInfo`: resolve the document (404), its
latest version (404 when it has none), check the object exists in
storage (404), and return the object key plus download metadata. -/
def getFileInfo (db : Db) (store : Store) (id : String) :
    Except AppError FileInfo :=
  match db.documents.find? (fun d => d.id == id) with
  | none => .error ⟨404, "Document not found"⟩
  | some _ =>
    match latestVersion db.versions id with
    | none => .error ⟨404, "No version found for this document"⟩
    | some latest =>
      if (store.lookup latest.filePath).isSome then
        .ok ⟨latest.filePath, latest.fileName, latest.mimeType⟩
      else
        .error ⟨404, "File not found in storage"⟩

/-- The download endpoint: `getFileInfo` followed by streaming
`storageService.download(info.objectKey)`. -/
def downloadDocument (db : Db) (store : Store) (id : String) :
    Except AppError Bytes := do
  let info ← getFileInfo db store id
  match store.lookup info.objectKey with
  | some content => .ok content
  | none => .error ⟨404, "File not found in storage"⟩

/-! ### Committed operations and the version-lineage invariant -/

/-- One committed mutating operation of the storage engine: an ingestion
job (first upload or new-version upload, by `documentId`), or a revert. -/
inductive Operation where
  | uploadJob (job : UploadJobData) (jobId newDocId newVersionId : String)
      (now : Nat)
  | revertOp (documentId versionId userId newVersionId : String) (now : Nat)

/-- Run one committed operation against the system state. -/
def applyOp (st : SysState) : Operation → Except AppError SysState
  | .uploadJob job jobId newDocId newVersionId now =>
    (processUpload st job jobId newDocId newVersionId now).map Prod.fst
  | .revertOp documentId versionId userId newVersionId now =>
    (revert st.db st.store documentId versionId userId newVersionId now).map
      (fun r => ⟨r.db, r.store, st.temps⟩)

/-- Freshness of database-generated ids: a first upload's new document
id must not collide with an existing document id or with the
`documentId` of an existing version row. -/
def opFresh (st : SysState) : Operation → Prop
  | .uploadJob job _ newDocId _ _ =>
    job.documentId = none →
      (∀ d ∈ st.db.documents, d.id ≠ newDocId) ∧
      (∀ v ∈ st.db.versions, v.documentId ≠ newDocId)
  | .revertOp _ _ _ _ _ => True

/-- The version numbers recorded for one document. -/
def versionNumbers (versions : List DocumentVersion) (documentId : String) :
    List Nat :=
  (versions.filter (fun v => v.documentId == documentId)).map
    (fun v => v.versionNumber)

/-- The greatest element of a list of naturals (`0` for `[]`). -/
def maxNat (l : List Nat) : Nat := l.foldr max 0

/-- The version-lineage invariant: every document has at least one
version row, and its `currentVersion` equals the greatest
`versionNumber` among them. -/
def docInvariant (db : Db) : Prop :=
  ∀ d ∈ db.documents,
    versionNumbers db.versions d.id ≠ [] ∧
    d.currentVersion = maxNat (versionNumbers db.versions d.id)

instance (db : Db) : Decidable (docInvariant db) := by
  unfold docInvariant; infer_instance

/-! ### Two reverts racing on one document

`prisma.$transaction` in `DocumentService.revert` covers only the row
insert and the document update (`revertCommit`); the resolution of the
target, the read of `currentVersion`, and the object copy
(`revertUpToCopy`) happen before it, outside any transaction, and no
unique constraint guards `(document_id, version_number)` (the
`document_versions` migration creates only a non-unique index on
`document_id`). Two request handlers may therefore both run their read
phase against the same database snapshot before either commits. This
definition is that interleaving: read₁, read₂, commit₁, commit₂. -/
def twoConcurrentReverts (db : Db) (store : Store)
    (documentId vid1 vid2 uid1 uid2 nid1 nid2 : String) (now : Nat) :
    Except AppError Db := do
  let plan1 ← revertRead db documentId vid1
  let store1 ← store.copy plan1.target.filePath plan1.newObjectKey
  let plan2 ← revertRead db documentId vid2
  let _store2 ← store1.copy plan2.target.filePath plan2.newObjectKey
  let (db1, _) := revertCommit db plan1 documentId uid1 nid1 now
  let (db2, _) := revertCommit db1 plan2 documentId uid2 nid2 now
  .ok db2

/-! ### Concrete example states (used by witnesses and
counterexamples) -/

/-- An example document whose title "A" differs from its version's
recorded title. -/
def exDoc : Document := ⟨"d1", "t1", "A", 1, some "u0", 0, 0⟩

/-- The example document's only version row, with title "B". -/
def exVersion : DocumentVersion :=
  ⟨"v1", "d1", 1, "B", "f.pdf", "documents/p1/j0.pdf",
   "application/pdf", 10, none, some "u0", 0⟩

/-- A one-document, one-version database satisfying `docInvariant`. -/
def exDb : Db := ⟨[exDoc], [exVersion]⟩

/-- The matching object store: the version's object is present. -/
def exStore : Store := [("documents/p1/j0.pdf", [1, 2, 3])]

/-- A version row that belongs to a different document (`d9`). -/
def exForeignVersion : DocumentVersion :=
  ⟨"v9", "d9", 1, "Z", "z.pdf", "documents/p1/z.pdf",
   "application/pdf", 5, none, none, 0⟩

/-- A first-upload job (no `documentId`). -/
def exJob : UploadJobData :=
  ⟨"/tmp/t1", "report.pdf", "application/pdf", 3, "t1", "Quality Manual",
   "p1", none, none, some "u1"⟩

/-- A new-version upload job targeting `d1`. -/
def exJob2 : UploadJobData :=
  ⟨"/tmp/t2", "report2.pdf", "application/pdf", 4, "t1", "Quality Manual v2",
   "p1", some "d1", some "Fixed typo", some "u1"⟩

/-- An empty system state with one staged temp file. -/
def exState0 : SysState := ⟨⟨[], []⟩, [], [("/tmp/t1", [7, 8, 9])]⟩

/-- The example database and store as a system state, with a staged
temp file for `exJob2`. -/
def exState1 : SysState := ⟨exDb, exStore, [("/tmp/t2", [4, 5, 6])]⟩

/-- An example tier table for enqueue calls. -/
def exTiers : List DocumentTier := [⟨"t1", "p1"⟩]

/-- An example enqueue request referencing no document (first upload). -/
def exEnq : EnqueueData :=
  ⟨"/tmp/t1", "report.pdf", "application/pdf", 3, "t1", "Quality Manual",
   none, none, some "u1"⟩

/-- The title of the document `revert` returns on the example state:
used to exhibit that revert rewrites the document's title. -/
def exRevertTitle : String :=
  match revert exDb exStore "d1" "v1" "u1" "nv1" 9 with
  | .ok r => r.doc.title
  | .error _ => ""

/-- The version numbers `d1` ends up with after two racing reverts on
the example state. -/
def exRaceNumbers : Except AppError (List Nat) :=
  (twoConcurrentReverts exDb exStore "d1" "v1" "v1" "u1" "u2" "nva" "nvb" 9).map
    (fun db => versionNumbers db.versions "d1")

/-- The `DocumentVersion` row a successful revert inserts. -/
def revertNewVersion (target : DocumentVersion) (doc : Document)
    (documentId userId newVersionId : String) (now : Nat) : DocumentVersion :=
  { id := newVersionId
    documentId := documentId
    versionNumber := doc.currentVersion + 1
    title := target.title
    fileName := target.fileName
    filePath := revertKey target (doc.currentVersion + 1)
    mimeType := target.mimeType
    fileSize := target.fileSize
    changelog := some ("Reverted to version " ++ toString target.versionNumber)
    uploadedById := some userId
    createdAt := now }

/-- The `Document` row update a successful revert applies. -/
def revertUpdatedDoc (target : DocumentVersion) (doc : Document)
    (newVersionNumber : Nat) (userId : String) (now : Nat) : Document :=
  { doc with title := target.title
             currentVersion := newVersionNumber
             uploadedById := some userId
             updatedAt := now }

/-- The `Document` row a first upload creates (`currentVersion = 1`). -/
def uploadNewDoc (job : UploadJobData) (newDocId : String) (now : Nat) :
    Document :=
  { id := newDocId, tierId := job.tierId, title := job.title,
    currentVersion := 1, uploadedById := job.userId,
    createdAt := now, updatedAt := now }

/-- The `DocumentVersion` row the worker inserts, numbered `n` and
pointing at the worker's object key. -/
def uploadVersionRow (job : UploadJobData) (docId newVersionId jobId : String)
    (n now : Nat) : DocumentVersion :=
  { id := newVersionId, documentId := docId, versionNumber := n,
    title := job.title, fileName := job.originalName,
    filePath := workerKey job jobId, mimeType := job.mimeType,
    fileSize := job.fileSize, changelog := job.changelog,
    uploadedById := job.userId, createdAt := now }

/-- The `Document` row update a new-version upload applies. -/
def uploadUpdatedDoc (job : UploadJobData) (n now : Nat) (x : Document) :
    Document :=
  { x with title := job.title, currentVersion := n,
           uploadedById := job.userId, updatedAt := now }

/-- A database where an extra version row belongs to another document
(`d9`): used to exercise the cross-document revert rejection. -/
def exDbForeign : Db := ⟨[exDoc], [exVersion, exForeignVersion]⟩

/-- The result a successful revert of `exDb` to `v1` produces. -/
def exRevertResult : RevertResult :=
  ⟨⟨exDb.documents.map (fun x =>
       if x.id == "d1" then
         revertUpdatedDoc exVersion x (exDoc.currentVersion + 1) "u1" 9
       else x),
     exDb.versions ++ [revertNewVersion exVersion exDoc "d1" "u1" "nv1" 9]⟩,
   exStore.put (revertKey exVersion (exDoc.currentVersion + 1)) [1, 2, 3],
   revertUpdatedDoc exVersion exDoc (exDoc.currentVersion + 1) "u1" 9⟩

/-- Decidable equality of `Except` results, for evaluating operations
on concrete states. -/
instance {e a : Type} [DecidableEq e] [DecidableEq a] :
    DecidableEq (Except e a) := fun x y =>
  match x, y with
  | .ok u, .ok v =>
    if h : u = v then .isTrue (congrArg Except.ok h)
    else .isFalse (fun hh => h (Except.ok.inj hh))
  | .error u, .error v =>
    if h : u = v then .isTrue (congrArg Except.error h)
    else .isFalse (fun hh => h (Except.error.inj hh))
  | .ok _, .error _ => .isFalse (fun hh => Except.noConfusion hh)
  | .error _, .ok _ => .isFalse (fun hh => Except.noConfusion hh)

/-- The system state after running `exJob` (a first upload) on
`exState0`. -/
def exUploadedState : SysState :=
  ⟨⟨[uploadNewDoc exJob "docA" 4], [uploadVersionRow exJob "docA" "verA" "j1" 1 4]⟩,
   [(workerKey exJob "j1", [7, 8, 9])], []⟩

/-! ## Basic lemmas -/

theorem foldr_max_eq (l : List Nat) (a : Nat) : l.foldr max a = max (maxNat l) a := by
  induction l with
  | nil => simp [maxNat]
  | cons c l ih =>
    simp only [List.foldr_cons, ih, maxNat, Nat.max_assoc]

theorem maxNat_append (l : List Nat) (n : Nat) :
    maxNat (l ++ [n]) = max (maxNat l) n := by
  have h : maxNat (l ++ [n]) = l.foldr max n := by
    simp [maxNat, List.foldr_append]
  rw [h, foldr_max_eq]

theorem le_maxNat {x : Nat} {l : List Nat} (h : x ∈ l) : x ≤ maxNat l := by
  induction l with
  | nil => cases h
  | cons c l ih =>
    rcases List.mem_cons.1 h with rfl | hx
    · exact Nat.le_max_left _ _
    · exact Nat.le_trans (ih hx) (Nat.le_max_right _ _)

theorem versionNumbers_append_self (vers : List DocumentVersion)
    (nv : DocumentVersion) (docId : String) (h : nv.documentId = docId) :
    versionNumbers (vers ++ [nv]) docId =
      versionNumbers vers docId ++ [nv.versionNumber] := by
  simp [versionNumbers, List.filter_append, h]

theorem versionNumbers_append_other (vers : List DocumentVersion)
    (nv : DocumentVersion) (docId : String) (h : nv.documentId ≠ docId) :
    versionNumbers (vers ++ [nv]) docId = versionNumbers vers docId := by
  simp [versionNumbers, List.filter_append, h]

theorem versionNumbers_nil_of_fresh (vers : List DocumentVersion)
    (docId : String) (h : ∀ v ∈ vers, v.documentId ≠ docId) :
    versionNumbers vers docId = [] := by
  simp only [versionNumbers, List.map_eq_nil_iff]
  exact List.filter_eq_nil_iff.2 (fun v hv => by simpa using h v hv)

theorem Store.lookup_put_self (s : Store) (k : String) (v : Bytes) :
    (s.put k v).lookup k = some v := by
  simp [Store.put, Store.lookup]

theorem Store.lookup_put_ne (s : Store) (k k' : String) (v : Bytes)
    (h : k ≠ k') : (s.put k v).lookup k' = s.lookup k' := by
  simp [Store.put, Store.lookup, h]

theorem splitLast_length {sep : Char} :
    ∀ {l pre post : List Char}, splitLast sep l = some (pre, post) →
      l.length = pre.length + post.length + 1 := by
  intro l
  induction l with
  | nil => intro pre post h; simp [splitLast] at h
  | cons c rest ih =>
    intro pre post h
    rw [splitLast] at h
    cases hr : splitLast sep rest with
    | some pq =>
      obtain ⟨p, q⟩ := pq
      rw [hr] at h
      simp only [Option.some.injEq, Prod.mk.injEq] at h
      obtain ⟨rfl, rfl⟩ := h
      have hrest := ih hr
      simp only [List.length_cons, hrest]
      omega
    | none =>
      rw [hr] at h
      by_cases hc : c = sep
      · rw [if_pos hc] at h
        simp only [Option.some.injEq, Prod.mk.injEq] at h
        obtain ⟨rfl, rfl⟩ := h
        simp
      · rw [if_neg hc] at h
        exact Option.noConfusion h

theorem length_mk (l : List Char) : (String.mk l).length = l.length := rfl

theorem length_replaceBackslash (s : String) :
    (replaceBackslash s).length = s.length := by
  unfold replaceBackslash
  rw [length_mk, List.length_map]
  rfl

theorem revertKey_length (tv : DocumentVersion) (n : Nat) :
    tv.filePath.length < (revertKey tv n).length := by
  have hslash : ("/" : String).length = 1 := rfl
  have hrv : ("revert-v" : String).length = 8 := rfl
  have hdash : ("-" : String).length = 1 := rfl
  have hlen : (revertKey tv n).length =
      (replaceBackslash (dirname tv.filePath)).length + 1 +
        (8 + (toString n).length + 1 + (basename tv.filePath).length) := by
    rw [revertKey, String.length_append, String.length_append,
        String.length_append, String.length_append, String.length_append,
        hslash, hrv, hdash]
  rw [hlen, length_replaceBackslash]
  cases hs : splitLast '/' tv.filePath.data with
  | some pq =>
    obtain ⟨pre, post⟩ := pq
    have hfp : tv.filePath.length = pre.length + post.length + 1 :=
      splitLast_length hs
    simp only [dirname, basename, hs, length_mk]
    omega
  | none =>
    simp only [dirname, basename, hs]
    have : ("." : String).length = 1 := rfl
    omega

theorem revertKey_ne (tv : DocumentVersion) (n : Nat) :
    revertKey tv n ≠ tv.filePath := by
  intro h
  have := revertKey_length tv n
  rw [h] at this
  exact Nat.lt_irrefl _ this

theorem find?_map_of_pred_inv {α : Type} (f : α → α) (p : α → Bool)
    (h : ∀ x, p (f x) = p x) (l : List α) :
    (l.map f).find? p = (l.find? p).map f := by
  induction l with
  | nil => rfl
  | cons a l ih =>
    simp only [List.map_cons, List.find?_cons, h a]
    cases hpa : p a <;> simp [ih]

/-! ## Characterization of the operations -/

theorem bind_ok {ε α β : Type} (x : α) (f : α → Except ε β) :
    (Except.ok x >>= f : Except ε β) = f x := rfl

theorem bind_error {e a b : Type} (err : e) (f : a → Except e b) :
    (Except.error err >>= f : Except e b) = .error err := rfl

theorem revertRead_ok {db : Db} {documentId versionId : String}
    {plan : RevertPlan} (h : revertRead db documentId versionId = .ok plan) :
    db.versions.find? (fun v => v.id == versionId) = some plan.target ∧
    plan.target.documentId = documentId ∧
    db.documents.find? (fun d => d.id == documentId) = some plan.doc ∧
    plan.newVersionNumber = plan.doc.currentVersion + 1 ∧
    plan.newObjectKey = revertKey plan.target plan.newVersionNumber := by
  unfold revertRead at h
  split at h
  · exact Except.noConfusion h
  next target hv =>
    split at h
    · exact Except.noConfusion h
    next hd =>
      split at h
      · exact Except.noConfusion h
      next doc hdoc =>
        injection h with h
        subst h
        push_neg at hd
        exact ⟨hv, hd, hdoc, rfl, rfl⟩

theorem revertRead_eq {db : Db} {documentId versionId : String}
    {target : DocumentVersion} {doc : Document}
    (hv : db.versions.find? (fun v => v.id == versionId) = some target)
    (hd : target.documentId = documentId)
    (hdoc : db.documents.find? (fun d => d.id == documentId) = some doc) :
    revertRead db documentId versionId =
      .ok { target := target, doc := doc,
            newVersionNumber := doc.currentVersion + 1,
            newObjectKey := revertKey target (doc.currentVersion + 1) } := by
  simp only [revertRead, hv, hdoc, hd]
  simp

theorem revert_eq {db : Db} {store : Store}
    {documentId versionId userId newVersionId : String} {now : Nat}
    {target : DocumentVersion} {doc : Document} {content : Bytes}
    (hv : db.versions.find? (fun v => v.id == versionId) = some target)
    (hd : target.documentId = documentId)
    (hdoc : db.documents.find? (fun d => d.id == documentId) = some doc)
    (hb : store.lookup target.filePath = some content) :
    revert db store documentId versionId userId newVersionId now =
      .ok ⟨⟨db.documents.map (fun x =>
              if x.id == documentId then
                revertUpdatedDoc target x (doc.currentVersion + 1) userId now
              else x),
            db.versions ++
              [revertNewVersion target doc documentId userId newVersionId now]⟩,
           store.put (revertKey target (doc.currentVersion + 1)) content,
           revertUpdatedDoc target doc (doc.currentVersion + 1) userId now⟩ := by
  simp only [revert, revertUpToCopy, revertRead_eq hv hd hdoc, bind_ok,
    Store.copy, hb, revertCommit, revertNewVersion, revertUpdatedDoc]

/-! ## Invariant preservation machinery -/

theorem invariant_bump (db : Db) (did : String) (d : Document)
    (hd : db.documents.find? (fun x => x.id == did) = some d)
    (hinv : docInvariant db)
    (upd : Document → Document)
    (hid : ∀ x, (upd x).id = x.id)
    (hcv_match : ∀ x, x.id = did → (upd x).currentVersion = d.currentVersion + 1)
    (hcv_other : ∀ x, x.id ≠ did → (upd x).currentVersion = x.currentVersion)
    (nv : DocumentVersion)
    (hnvdoc : nv.documentId = did)
    (hnvnum : nv.versionNumber = d.currentVersion + 1) :
    docInvariant ⟨db.documents.map upd, db.versions ++ [nv]⟩ := by
  intro d' hd'
  obtain ⟨x, hx, rfl⟩ := List.mem_map.1 hd'
  show versionNumbers (db.versions ++ [nv]) (upd x).id ≠ [] ∧
    (upd x).currentVersion = maxNat (versionNumbers (db.versions ++ [nv]) (upd x).id)
  rw [hid x]
  by_cases hxd : x.id = did
  · rw [versionNumbers_append_self db.versions nv x.id (by rw [hnvdoc, hxd])]
    refine ⟨by simp, ?_⟩
    have hmem := List.mem_of_find?_eq_some hd
    have hdid : d.id = did := by simpa using List.find?_some hd
    have hdcv := (hinv d hmem).2
    rw [hdid] at hdcv
    rw [hcv_match x hxd, maxNat_append, hxd, ← hdcv, hnvnum]
    exact (Nat.max_eq_right (Nat.le_succ _)).symm
  · rw [versionNumbers_append_other db.versions nv x.id
      (by rw [hnvdoc]; exact fun heq => hxd heq.symm)]
    rw [hcv_other x hxd]
    exact hinv x hx

theorem invariant_new_doc (db : Db) (newDoc : Document) (nv : DocumentVersion)
    (hfreshd : ∀ x ∈ db.documents, x.id ≠ newDoc.id)
    (hfreshv : ∀ v ∈ db.versions, v.documentId ≠ newDoc.id)
    (hinv : docInvariant db)
    (hnvdoc : nv.documentId = newDoc.id)
    (hnvnum : nv.versionNumber = 1)
    (hcv : newDoc.currentVersion = 1) :
    docInvariant ⟨db.documents ++ [newDoc], db.versions ++ [nv]⟩ := by
  intro d' hd'
  rcases List.mem_append.1 hd' with hx | hx
  · show versionNumbers (db.versions ++ [nv]) d'.id ≠ [] ∧
      d'.currentVersion = maxNat (versionNumbers (db.versions ++ [nv]) d'.id)
    rw [versionNumbers_append_other db.versions nv d'.id
      (by rw [hnvdoc]; exact fun heq => hfreshd d' hx heq.symm)]
    exact hinv d' hx
  · have hd'eq : d' = newDoc := by simpa using hx
    subst hd'eq
    show versionNumbers (db.versions ++ [nv]) d'.id ≠ [] ∧
      d'.currentVersion = maxNat (versionNumbers (db.versions ++ [nv]) d'.id)
    rw [versionNumbers_append_self db.versions nv d'.id hnvdoc,
        versionNumbers_nil_of_fresh db.versions d'.id hfreshv]
    simp [hnvnum, hcv, maxNat]

theorem nodup_versionNumbers_bump (db : Db) (did : String) (d : Document)
    (hd : db.documents.find? (fun x => x.id == did) = some d)
    (hinv : docInvariant db)
    (nv : DocumentVersion)
    (hnvdoc : nv.documentId = did)
    (hnvnum : nv.versionNumber = d.currentVersion + 1)
    (hnd : (versionNumbers db.versions did).Nodup) :
    (versionNumbers (db.versions ++ [nv]) did).Nodup := by
  rw [versionNumbers_append_self db.versions nv did hnvdoc]
  rw [List.nodup_append]
  refine ⟨hnd, List.nodup_singleton _, ?_⟩
  intro a ha hamem
  have haeq : a = nv.versionNumber := by simpa using hamem
  have hmem := List.mem_of_find?_eq_some hd
  have hdid : d.id = did := by simpa using List.find?_some hd
  have hdcv := (hinv d hmem).2
  rw [hdid] at hdcv
  have hle : a ≤ d.currentVersion := hdcv ▸ le_maxNat ha
  omega

/-! ## Latest-version selection -/

theorem latestVersionAux_append (l : List DocumentVersion)
    (x : DocumentVersion) :
    ∀ acc, (∀ v ∈ l, v.versionNumber < x.versionNumber) →
      (∀ w, acc = some w → w.versionNumber < x.versionNumber) →
      latestVersionAux (l ++ [x]) acc = some x := by
  induction l with
  | nil =>
    intro acc _ hacc
    cases acc with
    | none => simp [latestVersionAux]
    | some w =>
      simp only [List.nil_append, latestVersionAux]
      rw [if_pos (hacc w rfl)]
  | cons v l ih =>
    intro acc hl hacc
    cases acc with
    | none =>
      simp only [List.cons_append, latestVersionAux]
      exact ih (some v) (fun v' hv' => hl v' (List.mem_cons_of_mem _ hv'))
        (fun w hw => by injection hw with hw; exact hw ▸ hl v (List.mem_cons_self v l))
    | some w =>
      simp only [List.cons_append, latestVersionAux]
      by_cases hvw : v.versionNumber > w.versionNumber
      · rw [if_pos hvw]
        exact ih (some v) (fun v' hv' => hl v' (List.mem_cons_of_mem _ hv'))
          (fun w' hw' => by injection hw' with hw'; exact hw' ▸ hl v (List.mem_cons_self v l))
      · rw [if_neg hvw]
        exact ih (some w) (fun v' hv' => hl v' (List.mem_cons_of_mem _ hv'))
          (fun w' hw' => by injection hw' with hw'; exact hw' ▸ hacc w rfl)

theorem latestVersion_append (vers : List DocumentVersion)
    (nv : DocumentVersion) (docId : String)
    (hid : nv.documentId = docId)
    (hlt : ∀ v ∈ vers, v.documentId = docId →
      v.versionNumber < nv.versionNumber) :
    latestVersion (vers ++ [nv]) docId = some nv := by
  unfold latestVersion
  rw [List.filter_append]
  have hnv : List.filter (fun v => v.documentId == docId) [nv] = [nv] := by
    simp [hid]
  rw [hnv]
  apply latestVersionAux_append
  · intro v hv
    have := List.mem_filter.1 hv
    exact hlt v this.1 (by simpa using this.2)
  · intro w hw
    exact Option.noConfusion hw

theorem processUpload_eq_new (st : SysState) (job : UploadJobData)
    (jobId newDocId newVersionId : String) (now : Nat) (content : Bytes)
    (ht : st.temps.lookup job.tempFilePath = some content)
    (hjd : job.documentId = none) :
    processUpload st job jobId newDocId newVersionId now =
      .ok (⟨⟨st.db.documents ++ [uploadNewDoc job newDocId now],
             st.db.versions ++ [uploadVersionRow job newDocId newVersionId jobId 1 now]⟩,
            st.store.put (workerKey job jobId) content,
            st.temps.del job.tempFilePath⟩,
           ⟨newDocId, job.originalName, job.fileSize⟩) := by
  simp only [processUpload, ht, hjd, uploadNewDoc, uploadVersionRow]

theorem processUpload_eq_existing (st : SysState) (job : UploadJobData)
    (jobId newDocId newVersionId : String) (now : Nat) (content : Bytes)
    (did : String) (d : Document)
    (ht : st.temps.lookup job.tempFilePath = some content)
    (hjd : job.documentId = some did)
    (hdoc : st.db.documents.find? (fun x => x.id == did) = some d) :
    processUpload st job jobId newDocId newVersionId now =
      .ok (⟨⟨st.db.documents.map (fun x =>
               if x.id == did then uploadUpdatedDoc job (d.currentVersion + 1) now x
               else x),
             st.db.versions ++
               [uploadVersionRow job did newVersionId jobId (d.currentVersion + 1) now]⟩,
            st.store.put (workerKey job jobId) content,
            st.temps.del job.tempFilePath⟩,
           ⟨did, job.originalName, job.fileSize⟩) := by
  simp only [processUpload, ht, hjd, hdoc, uploadUpdatedDoc, uploadVersionRow]

theorem processUpload_ok_inv {st : SysState} {job : UploadJobData}
    {jobId newDocId newVersionId : String} {now : Nat}
    {out : SysState × UploadResult}
    (h : processUpload st job jobId newDocId newVersionId now = .ok out) :
    ∃ content, st.temps.lookup job.tempFilePath = some content ∧
      (job.documentId = none ∨
        ∃ did d, job.documentId = some did ∧
          st.db.documents.find? (fun x => x.id == did) = some d) := by
  unfold processUpload at h
  split at h
  · exact Except.noConfusion h
  next content ht =>
    refine ⟨content, ht, ?_⟩
    split at h
    next did hjd =>
      split at h
      · exact Except.noConfusion h
      next d hdoc => exact Or.inr ⟨did, d, hjd, hdoc⟩
    next hjd => exact Or.inl hjd

/-! ## Claim C3 -/

/-- C3: for every Document and every Version belonging to it, a
successful `revert` creates exactly one new Version row — the database
gains exactly `revertNewVersion` — whose `versionNumber` is the
document's `currentVersion + 1` as read before the insert, whose
changelog is `"Reverted to version {target.versionNumber}"`, whose
content metadata (title, fileName, mimeType, fileSize) is copied from
the target, and whose object key is a fresh key distinct from the
target's, holding a copy of the target's bytes; the document's
`currentVersion` is set to the new number and the refreshed Document row
is returned. -/
theorem c3_revert_creates_new_version
    (db : Db) (store : Store)
    (documentId versionId userId newVersionId : String) (now : Nat)
    (target : DocumentVersion) (doc : Document) (content : Bytes)
    (hv : db.versions.find? (fun v => v.id == versionId) = some target)
    (hd : target.documentId = documentId)
    (hdoc : db.documents.find? (fun d => d.id == documentId) = some doc)
    (hb : store.lookup target.filePath = some content) :
    revert db store documentId versionId userId newVersionId now =
      .ok ⟨⟨db.documents.map (fun x =>
              if x.id == documentId then
                revertUpdatedDoc target x (doc.currentVersion + 1) userId now
              else x),
            db.versions ++
              [revertNewVersion target doc documentId userId newVersionId now]⟩,
           store.put (revertKey target (doc.currentVersion + 1)) content,
           revertUpdatedDoc target doc (doc.currentVersion + 1) userId now⟩ ∧
    (revertNewVersion target doc documentId userId newVersionId now).versionNumber
        = doc.currentVersion + 1 ∧
    (revertNewVersion target doc documentId userId newVersionId now).changelog
        = some ("Reverted to version " ++ toString target.versionNumber) ∧
    (revertNewVersion target doc documentId userId newVersionId now).title
        = target.title ∧
    (revertNewVersion target doc documentId userId newVersionId now).fileName
        = target.fileName ∧
    (revertNewVersion target doc documentId userId newVersionId now).mimeType
        = target.mimeType ∧
    (revertNewVersion target doc documentId userId newVersionId now).fileSize
        = target.fileSize ∧
    (revertNewVersion target doc documentId userId newVersionId now).filePath
        ≠ target.filePath ∧
    (store.put (revertKey target (doc.currentVersion + 1)) content).lookup
        (revertNewVersion target doc documentId userId newVersionId now).filePath
        = some content ∧
    (revertUpdatedDoc target doc (doc.currentVersion + 1) userId now).currentVersion
        = doc.currentVersion + 1 := by
  refine ⟨revert_eq hv hd hdoc hb, rfl, rfl, rfl, rfl, rfl, rfl, ?_, ?_, rfl⟩
  · exact revertKey_ne target (doc.currentVersion + 1)
  · exact Store.lookup_put_self store (revertKey target (doc.currentVersion + 1)) content

/-- Witness for C3 on the concrete one-document state. -/
theorem c3_witness :
    revert exDb exStore "d1" "v1" "u1" "nv1" 9 =
      .ok ⟨⟨exDb.documents.map (fun x =>
              if x.id == "d1" then
                revertUpdatedDoc exVersion x (exDoc.currentVersion + 1) "u1" 9
              else x),
            exDb.versions ++
              [revertNewVersion exVersion exDoc "d1" "u1" "nv1" 9]⟩,
           exStore.put (revertKey exVersion (exDoc.currentVersion + 1)) [1, 2, 3],
           revertUpdatedDoc exVersion exDoc (exDoc.currentVersion + 1) "u1" 9⟩ ∧
    (revertNewVersion exVersion exDoc "d1" "u1" "nv1" 9).filePath
        ≠ exVersion.filePath := by
  have h := c3_revert_creates_new_version exDb exStore "d1" "v1" "u1" "nv1" 9
    exVersion exDoc [1, 2, 3] (by decide) (by decide) (by decide) (by decide)
  exact ⟨h.1, h.2.2.2.2.2.2.2.1⟩

/-! ## Claim C4 -/

/-- C4: revert is not destructive — a successful revert strictly
increases the document's Version row count, keeps every pre-existing
Version row (in particular the target's row, all fields included)
unchanged in the database, and leaves the object stored at the target's
key untouched. -/
theorem c4_revert_not_destructive
    (db : Db) (store : Store)
    (documentId versionId userId newVersionId : String) (now : Nat)
    (target : DocumentVersion) (doc : Document) (content : Bytes)
    (r : RevertResult)
    (hv : db.versions.find? (fun v => v.id == versionId) = some target)
    (hd : target.documentId = documentId)
    (hdoc : db.documents.find? (fun d => d.id == documentId) = some doc)
    (hb : store.lookup target.filePath = some content)
    (hr : revert db store documentId versionId userId newVersionId now = .ok r) :
    db.versions.length < r.db.versions.length ∧
    (versionNumbers db.versions documentId).length
        < (versionNumbers r.db.versions documentId).length ∧
    (∀ v ∈ db.versions, v ∈ r.db.versions) ∧
    target ∈ db.versions ∧
    target ∈ r.db.versions ∧
    r.store.lookup target.filePath = store.lookup target.filePath := by
  have heq := @revert_eq db store documentId versionId userId newVersionId now
    target doc content hv hd hdoc hb
  rw [hr] at heq
  injection heq with heq
  subst heq
  refine ⟨by simp, ?_, ?_, ?_, ?_, ?_⟩
  · show (versionNumbers db.versions documentId).length <
      (versionNumbers
        (db.versions ++ [revertNewVersion target doc documentId userId newVersionId now])
        documentId).length
    rw [versionNumbers_append_self db.versions _ documentId rfl]
    simp
  · intro v hv'
    simp only [List.mem_append]
    exact Or.inl hv'
  · exact List.mem_of_find?_eq_some hv
  · simp only [List.mem_append]
    exact Or.inl (List.mem_of_find?_eq_some hv)
  · exact Store.lookup_put_ne store _ target.filePath content
      (revertKey_ne target (doc.currentVersion + 1))

/-- Witness for C4 on the concrete one-document state. -/
theorem c4_witness :
    exDb.versions.length < exRevertResult.db.versions.length ∧
    exVersion ∈ exRevertResult.db.versions ∧
    exRevertResult.store.lookup exVersion.filePath
        = exStore.lookup exVersion.filePath := by
  have h := c4_revert_not_destructive exDb exStore "d1" "v1" "u1" "nv1" 9
    exVersion exDoc [1, 2, 3] exRevertResult (by decide) (by decide) (by decide)
    (by decide) (by decide)
  exact ⟨h.1, h.2.2.2.2.1, h.2.2.2.2.2⟩

/-! ## Claim C7 -/

/-- C7 counterexample: the claim says a revert changes only the
Document's `currentVersion`, creator and timestamp fields and in
particular leaves `title` unchanged. On the concrete state `exDb` the
document's title is "A", the target version's recorded title is "B",
and the document returned by the successful revert carries title "B":
`document.update` in `DocumentService.revert` also writes
`title: targetVersion.title`. -/
theorem c7_counterexample :
    exDoc.title = "A" ∧ exRevertTitle = "B" ∧
    revert exDb exStore "d1" "v1" "u1" "nv1" 9 = .ok exRevertResult ∧
    exRevertResult.doc.title = "B" := by
  refine ⟨rfl, ?_, by decide, rfl⟩
  decide

/-- C7 (amended): a successful revert updates the Document's
`currentVersion`, creator (`uploadedById`), timestamp (`updatedAt`) and
also its `title`, which is overwritten with the target Version's title;
all other Document fields — `id`, `tierId`, `createdAt` — are unchanged,
and documents other than the target one are untouched. -/
theorem c7_amended_revert_frame
    (db : Db) (store : Store)
    (documentId versionId userId newVersionId : String) (now : Nat)
    (target : DocumentVersion) (doc : Document) (content : Bytes)
    (r : RevertResult)
    (hv : db.versions.find? (fun v => v.id == versionId) = some target)
    (hd : target.documentId = documentId)
    (hdoc : db.documents.find? (fun d => d.id == documentId) = some doc)
    (hb : store.lookup target.filePath = some content)
    (hr : revert db store documentId versionId userId newVersionId now = .ok r) :
    r.db.documents = db.documents.map (fun x =>
      if x.id == documentId then
        revertUpdatedDoc target x (doc.currentVersion + 1) userId now
      else x) ∧
    r.doc = revertUpdatedDoc target doc (doc.currentVersion + 1) userId now ∧
    (∀ x : Document,
      (revertUpdatedDoc target x (doc.currentVersion + 1) userId now).id = x.id ∧
      (revertUpdatedDoc target x (doc.currentVersion + 1) userId now).tierId
          = x.tierId ∧
      (revertUpdatedDoc target x (doc.currentVersion + 1) userId now).createdAt
          = x.createdAt ∧
      (revertUpdatedDoc target x (doc.currentVersion + 1) userId now).title
          = target.title ∧
      (revertUpdatedDoc target x (doc.currentVersion + 1) userId now).currentVersion
          = doc.currentVersion + 1 ∧
      (revertUpdatedDoc target x (doc.currentVersion + 1) userId now).uploadedById
          = some userId ∧
      (revertUpdatedDoc target x (doc.currentVersion + 1) userId now).updatedAt
          = now) := by
  have heq := @revert_eq db store documentId versionId userId newVersionId now
    target doc content hv hd hdoc hb
  rw [hr] at heq
  injection heq with heq
  subst heq
  exact ⟨rfl, rfl, fun x => ⟨rfl, rfl, rfl, rfl, rfl, rfl, rfl⟩⟩

/-- Witness for the amended C7 on the concrete one-document state. -/
theorem c7_witness :
    exRevertResult.db.documents = exDb.documents.map (fun x =>
      if x.id == "d1" then
        revertUpdatedDoc exVersion x (exDoc.currentVersion + 1) "u1" 9
      else x) ∧
    exRevertResult.doc
        = revertUpdatedDoc exVersion exDoc (exDoc.currentVersion + 1) "u1" 9 ∧
    (revertUpdatedDoc exVersion exDoc (exDoc.currentVersion + 1) "u1" 9).tierId
        = exDoc.tierId := by
  have h := c7_amended_revert_frame exDb exStore "d1" "v1" "u1" "nv1" 9
    exVersion exDoc [1, 2, 3] exRevertResult (by decide) (by decide) (by decide)
    (by decide) (by decide)
  exact ⟨h.1, h.2.1, (h.2.2 exDoc).2.1⟩

/-! ## Claim C8 -/

/-- C8: `revert` fails with the same 404 error "Version not found for
this document" — and, returning an error, commits no state change —
both when the referenced version id resolves to no row and when it
resolves to a row belonging to a different document, so a foreign
version id is indistinguishable from a missing one. -/
theorem c8_revert_notfound
    (db : Db) (store : Store)
    (documentId versionId userId newVersionId : String) (now : Nat)
    (h : db.versions.find? (fun v => v.id == versionId) = none ∨
      ∃ target, db.versions.find? (fun v => v.id == versionId) = some target ∧
        target.documentId ≠ documentId) :
    revert db store documentId versionId userId newVersionId now =
      .error ⟨404, "Version not found for this document"⟩ := by
  rcases h with hnone | ⟨target, hsome, hne⟩
  · simp [revert, revertUpToCopy, revertRead, hnone, bind_error]
  · simp [revert, revertUpToCopy, revertRead, hsome, hne, bind_error]

/-- Witness for C8: reverting `d1` to version id `v9`, which exists but
belongs to document `d9`, is rejected with the same 404 as a missing
version id. -/
theorem c8_witness :
    revert exDbForeign exStore "d1" "v9" "u1" "nv1" 9 =
      .error ⟨404, "Version not found for this document"⟩ :=
  c8_revert_notfound exDbForeign exStore "d1" "v9" "u1" "nv1" 9
    (Or.inr ⟨exForeignVersion, by decide, by decide⟩)

/-! ## Claim C10 -/

/-- C10: the object copy in `revert` precedes the metadata transaction
and is not covered by it. After `revertUpToCopy` (the exact state in
which the transaction starts, and the state left behind if it fails) the
database is unchanged — `revertUpToCopy` only reads it — while the
object store already holds a copy of the target's bytes at the new key;
every other key is untouched, and (given that no existing row uses the
new key) no Version row references the copied object, so a failed
transaction strands it with no compensating delete. -/
theorem c10_orphaned_copy
    (db : Db) (store : Store) (documentId versionId : String)
    (target : DocumentVersion) (doc : Document) (content : Bytes)
    (hv : db.versions.find? (fun v => v.id == versionId) = some target)
    (hd : target.documentId = documentId)
    (hdoc : db.documents.find? (fun d => d.id == documentId) = some doc)
    (hb : store.lookup target.filePath = some content)
    (horphan : ∀ v ∈ db.versions,
      v.filePath ≠ revertKey target (doc.currentVersion + 1)) :
    revertUpToCopy db store documentId versionId =
      .ok ({ target := target, doc := doc,
             newVersionNumber := doc.currentVersion + 1,
             newObjectKey := revertKey target (doc.currentVersion + 1) },
           store.put (revertKey target (doc.currentVersion + 1)) content) ∧
    (store.put (revertKey target (doc.currentVersion + 1)) content).lookup
        (revertKey target (doc.currentVersion + 1)) = some content ∧
    (∀ k, k ≠ revertKey target (doc.currentVersion + 1) →
      (store.put (revertKey target (doc.currentVersion + 1)) content).lookup k
        = store.lookup k) ∧
    (∀ v ∈ db.versions,
      v.filePath ≠ revertKey target (doc.currentVersion + 1)) := by
  refine ⟨?_, Store.lookup_put_self store _ content, ?_, horphan⟩
  · rw [revertUpToCopy, revertRead_eq hv hd hdoc]
    simp only [bind_ok, Store.copy, hb]
  · intro k hk
    exact Store.lookup_put_ne store _ k content (fun heq => hk heq.symm)

/-- Witness for C10 on the concrete one-document state. -/
theorem c10_witness :
    revertUpToCopy exDb exStore "d1" "v1" =
      .ok ({ target := exVersion, doc := exDoc,
             newVersionNumber := exDoc.currentVersion + 1,
             newObjectKey := revertKey exVersion (exDoc.currentVersion + 1) },
           exStore.put (revertKey exVersion (exDoc.currentVersion + 1)) [1, 2, 3]) ∧
    (exStore.put (revertKey exVersion (exDoc.currentVersion + 1)) [1, 2, 3]).lookup
        (revertKey exVersion (exDoc.currentVersion + 1)) = some [1, 2, 3] := by
  have h := c10_orphaned_copy exDb exStore "d1" "v1" exVersion exDoc [1, 2, 3]
    (by decide) (by decide) (by decide) (by decide) (by decide)
  exact ⟨h.1, h.2.1⟩

/-! ## Claim C5 -/

/-- C5 counterexample: the claim says the read-increment-write of
`currentVersion` is serialized inside a single atomic transaction (or a
compare-and-swap), so concurrent commits can never produce two Version
rows with the same `versionNumber`. In the code the
`prisma.$transaction` covers only the insert and the update; the read of
`currentVersion` happens before it, and `document_versions` carries no
unique constraint on `(document_id, version_number)`. Interleaving the
two read phases of two reverts of `exDb` before either commit
(`twoConcurrentReverts`) therefore commits version numbers `[1, 2, 2]` —
a duplicate — for document `d1`. -/
theorem c5_counterexample :
    exRaceNumbers = .ok [1, 2, 2] ∧ ¬ ([1, 2, 2] : List Nat).Nodup := by
  exact ⟨by decide, by decide⟩

/-- C5 (amended): only the Version insert and Document update are
atomic; the read of `currentVersion` happens outside the transaction,
so two concurrent reverts can commit duplicate version numbers. When
commits against a document are serialized — each `revert` runs to
completion before the next starts — duplicate-freeness of its version
numbers is preserved, because the inserted number `currentVersion + 1`
strictly exceeds every recorded number. -/
theorem c5_amended_serialized_no_duplicates
    (db : Db) (store : Store)
    (documentId versionId userId newVersionId : String) (now : Nat)
    (target : DocumentVersion) (doc : Document) (content : Bytes)
    (r : RevertResult)
    (hinv : docInvariant db)
    (hv : db.versions.find? (fun v => v.id == versionId) = some target)
    (hd : target.documentId = documentId)
    (hdoc : db.documents.find? (fun d => d.id == documentId) = some doc)
    (hb : store.lookup target.filePath = some content)
    (hr : revert db store documentId versionId userId newVersionId now = .ok r)
    (hnd : (versionNumbers db.versions documentId).Nodup) :
    (versionNumbers r.db.versions documentId).Nodup := by
  have heq := @revert_eq db store documentId versionId userId newVersionId now
    target doc content hv hd hdoc hb
  rw [hr] at heq
  injection heq with heq
  subst heq
  show (versionNumbers
    (db.versions ++ [revertNewVersion target doc documentId userId newVersionId now])
    documentId).Nodup
  exact nodup_versionNumbers_bump db documentId doc hdoc hinv
    (revertNewVersion target doc documentId userId newVersionId now) rfl rfl hnd

/-- Witness for the amended C5 on the concrete one-document state. -/
theorem c5_witness :
    (versionNumbers exRevertResult.db.versions "d1").Nodup :=
  c5_amended_serialized_no_duplicates exDb exStore "d1" "v1" "u1" "nv1" 9
    exVersion exDoc [1, 2, 3] exRevertResult (by decide) (by decide) (by decide)
    (by decide) (by decide) (by decide) (by decide)

/-! ## Claim C1 -/

/-- C1: every committed operation — a first upload, a new-version upload
(both `Operation.uploadJob`, with the worker modelled from the spec
because the version-table revision of `uploadWorker.ts` is absent from
the snapshot), or a revert (from `DocumentService.revert` in the source)
— preserves the lineage invariant: afterwards every Document has at
least one Version row and its `currentVersion` equals the greatest
`versionNumber` among them. The freshness hypothesis says the
database-generated id of a first upload's new Document collides with no
existing row, as UUID generation guarantees. -/
theorem c1_invariant_preserved
    (st st' : SysState) (op : Operation)
    (hf : opFresh st op)
    (hinv : docInvariant st.db)
    (h : applyOp st op = .ok st') :
    docInvariant st'.db := by
  cases op with
  | uploadJob job jobId newDocId newVersionId now =>
    simp only [applyOp] at h
    cases hres : processUpload st job jobId newDocId newVersionId now with
    | error e => rw [hres] at h; simp [Except.map] at h
    | ok out =>
      rw [hres] at h
      simp only [Except.map, Except.ok.injEq] at h
      subst h
      obtain ⟨content, ht, hcase⟩ := processUpload_ok_inv hres
      rcases hcase with hjd | ⟨did, d, hjd, hdoc⟩
      · have he := processUpload_eq_new st job jobId newDocId newVersionId now
          content ht hjd
        rw [hres] at he
        injection he with he
        subst he
        have hfresh := hf hjd
        exact invariant_new_doc st.db (uploadNewDoc job newDocId now)
          (uploadVersionRow job newDocId newVersionId jobId 1 now)
          hfresh.1 hfresh.2 hinv rfl rfl rfl
      · have he := processUpload_eq_existing st job jobId newDocId newVersionId
          now content did d ht hjd hdoc
        rw [hres] at he
        injection he with he
        subst he
        refine invariant_bump st.db did d hdoc hinv
          (fun x => if x.id == did then uploadUpdatedDoc job (d.currentVersion + 1) now x else x)
          ?_ ?_ ?_
          (uploadVersionRow job did newVersionId jobId (d.currentVersion + 1) now)
          rfl rfl
        · intro x
          by_cases hx : x.id == did
          · simp [hx, uploadUpdatedDoc]
          · simp [hx]
        · intro x hx
          simp [hx, uploadUpdatedDoc]
        · intro x hx
          simp [hx]
  | revertOp documentId versionId userId newVersionId now =>
    simp only [applyOp] at h
    cases hres : revert st.db st.store documentId versionId userId newVersionId now with
    | error e => rw [hres] at h; simp [Except.map] at h
    | ok r =>
      rw [hres] at h
      simp only [Except.map, Except.ok.injEq] at h
      subst h
      cases hrr : revertRead st.db documentId versionId with
      | error e =>
        rw [revert, revertUpToCopy, hrr] at hres
        simp [bind_error] at hres
      | ok plan =>
        obtain ⟨hv, hd, hdoc, hnum, hkey⟩ := revertRead_ok hrr
        cases hcp : st.store.lookup plan.target.filePath with
        | none =>
          exfalso
          rw [revert, revertUpToCopy, hrr] at hres
          simp [bind_ok, Store.copy, hcp, bind_error] at hres
        | some content =>
          have he := @revert_eq st.db st.store documentId versionId userId
            newVersionId now plan.target plan.doc content hv hd hdoc hcp
          rw [hres] at he
          injection he with he
          subst he
          refine invariant_bump st.db documentId plan.doc hdoc hinv
            (fun x => if x.id == documentId then
              revertUpdatedDoc plan.target x (plan.doc.currentVersion + 1) userId now
            else x)
            ?_ ?_ ?_
            (revertNewVersion plan.target plan.doc documentId userId newVersionId now)
            rfl rfl
          · intro x
            by_cases hx : x.id == documentId
            · simp [hx, revertUpdatedDoc]
            · simp [hx]
          · intro x hx
            simp [hx, revertUpdatedDoc]
          · intro x hx
            simp [hx]

/-- Witness for C1: running the first-upload `exJob` on the empty state
yields `exUploadedState`, which satisfies the invariant. -/
theorem c1_witness : docInvariant exUploadedState.db :=
  c1_invariant_preserved exState0 exUploadedState
    (.uploadJob exJob "j1" "docA" "verA" 4)
    (fun _ => ⟨by decide, by decide⟩)
    (by decide)
    (by decide)

/-! ## Claim C2 -/

/-- C2: the worker's metadata commit (modelled from the spec, the
version-table `uploadWorker.ts` being absent from the snapshot). With
`documentId` absent it creates, in one atomic step — a single `Db`
transition — a Document with `currentVersion = 1` together with Version
#1; with `documentId` present it reads that Document, creates a Version
numbered `currentVersion + 1` whose `filePath` is the newly stored
object key `workerKey`, and updates the Document's `currentVersion` and
denormalized fields in the same single transition. -/
theorem c2_worker_commit
    (st : SysState) (job : UploadJobData)
    (jobId newDocId newVersionId : String) (now : Nat) (content : Bytes)
    (ht : st.temps.lookup job.tempFilePath = some content) :
    (job.documentId = none →
      processUpload st job jobId newDocId newVersionId now =
        .ok (⟨⟨st.db.documents ++ [uploadNewDoc job newDocId now],
               st.db.versions ++
                 [uploadVersionRow job newDocId newVersionId jobId 1 now]⟩,
              st.store.put (workerKey job jobId) content,
              st.temps.del job.tempFilePath⟩,
             ⟨newDocId, job.originalName, job.fileSize⟩) ∧
      (uploadNewDoc job newDocId now).currentVersion = 1 ∧
      (uploadVersionRow job newDocId newVersionId jobId 1 now).versionNumber = 1 ∧
      (uploadVersionRow job newDocId newVersionId jobId 1 now).documentId
          = newDocId) ∧
    (∀ did d, job.documentId = some did →
      st.db.documents.find? (fun x => x.id == did) = some d →
      processUpload st job jobId newDocId newVersionId now =
        .ok (⟨⟨st.db.documents.map (fun x =>
                 if x.id == did then
                   uploadUpdatedDoc job (d.currentVersion + 1) now x
                 else x),
               st.db.versions ++
                 [uploadVersionRow job did newVersionId jobId (d.currentVersion + 1) now]⟩,
              st.store.put (workerKey job jobId) content,
              st.temps.del job.tempFilePath⟩,
             ⟨did, job.originalName, job.fileSize⟩) ∧
      (uploadVersionRow job did newVersionId jobId (d.currentVersion + 1) now).versionNumber
          = d.currentVersion + 1 ∧
      (uploadVersionRow job did newVersionId jobId (d.currentVersion + 1) now).filePath
          = workerKey job jobId ∧
      (uploadUpdatedDoc job (d.currentVersion + 1) now d).currentVersion
          = d.currentVersion + 1) := by
  constructor
  · intro hjd
    exact ⟨processUpload_eq_new st job jobId newDocId newVersionId now content ht hjd,
      rfl, rfl, rfl⟩
  · intro did d hjd hdoc
    exact ⟨processUpload_eq_existing st job jobId newDocId newVersionId now
      content did d ht hjd hdoc, rfl, rfl, rfl⟩

/-- Witness for C2, exercising both branches: `exJob` (first upload) on
the empty state and `exJob2` (new version of `d1`) on the one-document
state. -/
theorem c2_witness :
    processUpload exState0 exJob "j1" "docA" "verA" 4 =
      .ok (⟨⟨exState0.db.documents ++ [uploadNewDoc exJob "docA" 4],
             exState0.db.versions ++
               [uploadVersionRow exJob "docA" "verA" "j1" 1 4]⟩,
            exState0.store.put (workerKey exJob "j1") [7, 8, 9],
            exState0.temps.del exJob.tempFilePath⟩,
           ⟨"docA", exJob.originalName, exJob.fileSize⟩) ∧
    processUpload exState1 exJob2 "j2" "docB" "verB" 5 =
      .ok (⟨⟨exState1.db.documents.map (fun x =>
               if x.id == "d1" then
                 uploadUpdatedDoc exJob2 (exDoc.currentVersion + 1) 5 x
               else x),
             exState1.db.versions ++
               [uploadVersionRow exJob2 "d1" "verB" "j2" (exDoc.currentVersion + 1) 5]⟩,
            exState1.store.put (workerKey exJob2 "j2") [4, 5, 6],
            exState1.temps.del exJob2.tempFilePath⟩,
           ⟨"d1", exJob2.originalName, exJob2.fileSize⟩) := by
  have h1 := (c2_worker_commit exState0 exJob "j1" "docA" "verA" 4 [7, 8, 9]
    (by decide)).1 rfl
  have h2 := (c2_worker_commit exState1 exJob2 "j2" "docB" "verB" 5 [4, 5, 6]
    (by decide)).2 "d1" exDoc rfl (by decide)
  exact ⟨h1.1, h2.1⟩

/-! ## Claim C9 -/

/-- C9: `enqueueUpload` validates before persisting. When the tier does
not exist the call fails with 404 "Tier not found"; when a referenced
`documentId` does not exist it fails with 404 "Document not found"; in
both cases it returns an error and hence no job record, so nothing is
added to the queue. Only when both lookups succeed is the job — the
request data stamped with the tier's project id — appended to the queue
and its id returned. -/
theorem c9_enqueue_validation
    (tiers : List DocumentTier) (db : Db) (queue : List QueuedJob)
    (d : EnqueueData) :
    (tiers.find? (fun t => t.id == d.tierId) = none →
      enqueueUpload tiers db queue d = .error ⟨404, "Tier not found"⟩) ∧
    (∀ tier did, tiers.find? (fun t => t.id == d.tierId) = some tier →
      d.documentId = some did →
      db.documents.find? (fun x => x.id == did) = none →
      enqueueUpload tiers db queue d = .error ⟨404, "Document not found"⟩) ∧
    (∀ tier, tiers.find? (fun t => t.id == d.tierId) = some tier →
      (d.documentId = none ∨
        ∃ did dd, d.documentId = some did ∧
          db.documents.find? (fun x => x.id == did) = some dd) →
      enqueueUpload tiers db queue d =
        .ok (queue ++ [⟨toString queue.length, mkJobData d tier.projectId⟩],
             toString queue.length)) := by
  refine ⟨?_, ?_, ?_⟩
  · intro hnone
    simp [enqueueUpload, hnone]
  · intro tier did htier hdid hfind
    simp [enqueueUpload, htier, hdid, hfind]
  · intro tier htier hcase
    rcases hcase with hnone | ⟨did, dd, hdid, hfind⟩
    · simp [enqueueUpload, htier, hnone]
    · simp [enqueueUpload, htier, hdid, hfind]

/-- Witness for C9, exercising all three branches. -/
theorem c9_witness :
    enqueueUpload [] exDb [] exEnq = .error ⟨404, "Tier not found"⟩ ∧
    enqueueUpload exTiers exDb [] { exEnq with documentId := some "missing" } =
      .error ⟨404, "Document not found"⟩ ∧
    enqueueUpload exTiers exDb [] exEnq =
      .ok ([⟨toString ([] : List QueuedJob).length, mkJobData exEnq "p1"⟩],
           toString ([] : List QueuedJob).length) := by
  have h1 := c9_enqueue_validation [] exDb [] exEnq
  have h2 := c9_enqueue_validation exTiers exDb []
    { exEnq with documentId := some "missing" }
  have h3 := c9_enqueue_validation exTiers exDb [] exEnq
  exact ⟨h1.1 (by decide),
    h2.2.1 ⟨"t1", "p1"⟩ "missing" (by decide) rfl (by decide),
    h3.2.2 ⟨"t1", "p1"⟩ (by decide) (Or.inl rfl)⟩

/-! ## Claim C6 -/

/-- C6: round-trip. After the worker commits an upload of content
`content` (worker modelled from the spec; the download path is
`DocumentService.getFileInfo` plus the object-store stream from the
source), `getFileInfo` on the resulting document resolves exactly the
object key the worker stored under (`workerKey`), with the original
filename and MIME type, and downloading yields bytes identical to
`content`. For a first upload the freshness hypothesis rules out id
collisions with the database-generated document id; for a new-version
upload the lineage invariant guarantees the new version is selected as
the latest. -/
theorem c6_upload_download_roundtrip
    (st : SysState) (job : UploadJobData)
    (jobId newDocId newVersionId : String) (now : Nat) (content : Bytes)
    (st' : SysState) (res : UploadResult)
    (hinv : docInvariant st.db)
    (hfresh : job.documentId = none →
      (∀ x ∈ st.db.documents, x.id ≠ newDocId) ∧
      (∀ v ∈ st.db.versions, v.documentId ≠ newDocId))
    (ht : st.temps.lookup job.tempFilePath = some content)
    (hok : processUpload st job jobId newDocId newVersionId now = .ok (st', res)) :
    getFileInfo st'.db st'.store res.documentId =
      .ok ⟨workerKey job jobId, job.originalName, job.mimeType⟩ ∧
    downloadDocument st'.db st'.store res.documentId = .ok content := by
  obtain ⟨content', ht', hcase⟩ := processUpload_ok_inv hok
  rw [ht] at ht'
  injection ht' with ht'
  subst ht'
  rcases hcase with hjd | ⟨did, dd, hjd, hdoc⟩
  · have he := processUpload_eq_new st job jobId newDocId newVersionId now
      content ht hjd
    rw [hok] at he
    injection he with he
    have hst : st' = ⟨⟨st.db.documents ++ [uploadNewDoc job newDocId now],
        st.db.versions ++ [uploadVersionRow job newDocId newVersionId jobId 1 now]⟩,
      st.store.put (workerKey job jobId) content,
      st.temps.del job.tempFilePath⟩ := congrArg Prod.fst he
    have hres : res = ⟨newDocId, job.originalName, job.fileSize⟩ :=
      congrArg Prod.snd he
    subst hst
    subst hres
    have hfind : (st.db.documents ++ [uploadNewDoc job newDocId now]).find?
        (fun x => x.id == newDocId) = some (uploadNewDoc job newDocId now) := by
      rw [List.find?_append]
      have h1 : st.db.documents.find? (fun x => x.id == newDocId) = none :=
        List.find?_eq_none.2 (fun x hx => by simpa using (hfresh hjd).1 x hx)
      rw [h1]
      simp [uploadNewDoc]
    have hfilter : st.db.versions.filter (fun v => v.documentId == newDocId)
        = [] :=
      List.filter_eq_nil_iff.2 (fun v hv => by simpa using (hfresh hjd).2 v hv)
    have hlatest : latestVersion
        (st.db.versions ++ [uploadVersionRow job newDocId newVersionId jobId 1 now])
        newDocId = some (uploadVersionRow job newDocId newVersionId jobId 1 now) := by
      unfold latestVersion
      rw [List.filter_append, hfilter]
      simp [uploadVersionRow, latestVersionAux]
    constructor
    · simp only [getFileInfo, hfind, hlatest]
      simp [uploadVersionRow, Store.lookup_put_self]
    · simp only [downloadDocument, getFileInfo, hfind, hlatest]
      simp [uploadVersionRow, Store.lookup_put_self, bind_ok]
  · have he := processUpload_eq_existing st job jobId newDocId newVersionId now
      content did dd ht hjd hdoc
    rw [hok] at he
    injection he with he
    have hst : st' = ⟨⟨st.db.documents.map (fun x =>
        if x.id == did then uploadUpdatedDoc job (dd.currentVersion + 1) now x
        else x),
        st.db.versions ++
          [uploadVersionRow job did newVersionId jobId (dd.currentVersion + 1) now]⟩,
      st.store.put (workerKey job jobId) content,
      st.temps.del job.tempFilePath⟩ := congrArg Prod.fst he
    have hres : res = ⟨did, job.originalName, job.fileSize⟩ :=
      congrArg Prod.snd he
    subst hst
    subst hres
    have hpredinv : ∀ x : Document,
        (((fun x => if x.id == did then
            uploadUpdatedDoc job (dd.currentVersion + 1) now x
          else x) x).id == did) = (x.id == did) := by
      intro x
      by_cases hx : (x.id == did) = true
      · simp [hx, uploadUpdatedDoc]
      · simp [hx]
    have hfind := find?_map_of_pred_inv
      (fun x => if x.id == did then
        uploadUpdatedDoc job (dd.currentVersion + 1) now x
      else x)
      (fun x => x.id == did) hpredinv st.db.documents
    rw [hdoc] at hfind
    simp only [Option.map_some'] at hfind
    have hlt : ∀ v ∈ st.db.versions, v.documentId = did →
        v.versionNumber < dd.currentVersion + 1 := by
      intro v hv hvd
      have hmemn : v.versionNumber ∈ versionNumbers st.db.versions did := by
        simp only [versionNumbers, List.mem_map, List.mem_filter]
        exact ⟨v, ⟨hv, by simp [hvd]⟩, rfl⟩
      have hddmem := List.mem_of_find?_eq_some hdoc
      have hddid : dd.id = did := by simpa using List.find?_some hdoc
      have hcv := (hinv dd hddmem).2
      rw [hddid] at hcv
      have hle := le_maxNat hmemn
      omega
    have hlatest : latestVersion
        (st.db.versions ++
          [uploadVersionRow job did newVersionId jobId (dd.currentVersion + 1) now])
        did = some (uploadVersionRow job did newVersionId jobId (dd.currentVersion + 1) now) :=
      latestVersion_append st.db.versions _ did rfl hlt
    constructor
    · simp only [getFileInfo, hfind, hlatest]
      simp [uploadVersionRow, Store.lookup_put_self]
    · simp only [downloadDocument, getFileInfo, hfind, hlatest]
      simp [uploadVersionRow, Store.lookup_put_self, bind_ok]

/-- Witness for C6: the first upload `exJob` followed by a download of
`docA` returns the uploaded bytes. -/
theorem c6_witness :
    getFileInfo exUploadedState.db exUploadedState.store "docA" =
      .ok ⟨workerKey exJob "j1", exJob.originalName, exJob.mimeType⟩ ∧
    downloadDocument exUploadedState.db exUploadedState.store "docA" =
      .ok [7, 8, 9] :=
  c6_upload_download_roundtrip exState0 exJob "j1" "docA" "verA" 4 [7, 8, 9]
    exUploadedState ⟨"docA", exJob.originalName, exJob.fileSize⟩
    (by decide) (fun _ => ⟨by decide, by decide⟩) (by decide) (by decide)

end DocMgr
